import Mathlib

/-!
Verification of the protobuf-mcp-server repository (Go).

This file gives a shallow embedding, in Lean 4, of the parts of the
repository that the specification's claims are about:

* the descriptor data model (`google.golang.org/protobuf/types/descriptorpb`
  values as used by the code: names, fields, methods, enum values);
* the `get_schema` tool (`internal/tools/get_schema.go`): parameter
  filtering, schema projection (`buildSchemaInfo`), statistics, and the
  top-level `Execute` control flow;
* the `list_services` tool handlers;
* the glob machinery of `internal/config` (`ResolveProtoFiles`,
  `resolveRecursivePattern`) and `internal/compiler`
  (`findProtoFiles`, `shouldIgnoreFile`), including a port of Go's
  `path/filepath.Match` single-level glob matcher over an explicit
  filesystem model;
* the import-root relativization step of the compiler's `CompileProtos`;
* the `activate_project` handler's state-replacement control flow.

Go machine integers never overflow in the modelled code paths (they hold
list lengths and proto field numbers), so they are modelled as `Nat`/`Int`.
Fallible Go functions (returning `(T, error)`) are modelled with `Except`.
-/

namespace Protomcp

/-! ## Descriptor data model

Modelled from `descriptorpb.FileDescriptorProto` and its children, keeping
exactly the fields the repository reads.  Go's optional proto fields are
read through getters (`GetName` etc.) that return the zero value when the
field is absent; the model stores the getter's result directly. -/

/-- A message field (`descriptorpb.FieldDescriptorProto`): the tool reads
name, number, type name, label and default value. -/
structure FieldDescriptorProto where
  name : String
  number : Int
  typeName : String
  label : String
  defaultValue : String
  deriving Repr, DecidableEq

/-- A message (`descriptorpb.DescriptorProto`): name and fields. -/
structure DescriptorProto where
  name : String
  field : List FieldDescriptorProto
  deriving Repr, DecidableEq

/-- A service method (`descriptorpb.MethodDescriptorProto`). -/
structure MethodDescriptorProto where
  name : String
  inputType : String
  outputType : String
  clientStreaming : Bool
  serverStreaming : Bool
  deriving Repr, DecidableEq

/-- A service (`descriptorpb.ServiceDescriptorProto`). -/
structure ServiceDescriptorProto where
  name : String
  method : List MethodDescriptorProto
  deriving Repr, DecidableEq

/-- An enum value (`descriptorpb.EnumValueDescriptorProto`). -/
structure EnumValueDescriptorProto where
  name : String
  number : Int
  deriving Repr, DecidableEq

/-- An enum (`descriptorpb.EnumDescriptorProto`). -/
structure EnumDescriptorProto where
  name : String
  value : List EnumValueDescriptorProto
  deriving Repr, DecidableEq

/-- A compiled file (`descriptorpb.FileDescriptorProto`): the fields read by
`buildSchemaInfo` and the converters in `internal/tools/get_schema.go`. -/
structure FileDescriptorProto where
  name : String
  pkg : String
  dependency : List String
  messageType : List DescriptorProto
  service : List ServiceDescriptorProto
  enumType : List EnumDescriptorProto
  deriving Repr, DecidableEq

/-- `descriptorpb.FileDescriptorSet`: the compiled artifact. -/
structure FileDescriptorSet where
  file : List FileDescriptorProto
  deriving Repr, DecidableEq

/-- `compiler.ProtobufProject` as read by the query tools: only the
`CompiledProtos` field matters (nil ⇒ not compiled). -/
structure ProtobufProject where
  compiledProtos : Option FileDescriptorSet
  deriving Repr, DecidableEq

/-! ## `get_schema` response model (`internal/tools/get_schema.go`) -/

/-- `tools.FieldInfo`. -/
structure FieldInfo where
  name : String
  number : Int
  type : String
  label : String
  description : String
  default : String
  deriving Repr, DecidableEq

/-- `tools.MessageInfo`. -/
structure MessageInfo where
  name : String
  fullName : String
  fields : List FieldInfo
  file : String
  pkg : String
  description : String
  deriving Repr, DecidableEq

/-- `tools.MethodInfo` (types.go). -/
structure MethodInfo where
  name : String
  inputType : String
  outputType : String
  clientStreaming : Bool
  serverStreaming : Bool
  description : String
  deriving Repr, DecidableEq

/-- `tools.ServiceInfo` (types.go). -/
structure ServiceInfo where
  name : String
  fullName : String
  methods : List MethodInfo
  file : String
  pkg : String
  description : String
  deriving Repr, DecidableEq

/-- `tools.EnumValueInfo`. -/
structure EnumValueInfo where
  name : String
  number : Int
  description : String
  deriving Repr, DecidableEq

/-- `tools.EnumInfo`. -/
structure EnumInfo where
  name : String
  fullName : String
  values : List EnumValueInfo
  file : String
  pkg : String
  description : String
  deriving Repr, DecidableEq

/-- `tools.FileInfo`. -/
structure FileInfo where
  name : String
  pkg : String
  dependencies : List String
  description : String
  deriving Repr, DecidableEq

/-- `tools.StatsInfo`. -/
structure StatsInfo where
  totalMessages : Nat
  totalServices : Nat
  totalEnums : Nat
  totalFiles : Nat
  totalFields : Nat
  totalMethods : Nat
  totalValues : Nat
  deriving Repr, DecidableEq

/-- `tools.SchemaInfo`. -/
structure SchemaInfo where
  messages : List MessageInfo
  services : List ServiceInfo
  enums : List EnumInfo
  files : List FileInfo
  stats : StatsInfo
  deriving Repr, DecidableEq

/-- `tools.GetSchemaParams`. -/
structure GetSchemaParams where
  messageTypes : List String
  serviceTypes : List String
  enumTypes : List String
  includeFileInfo : Bool
  deriving Repr, DecidableEq

/-- `tools.GetSchemaResponse`.  `Schema` is `omitempty` in Go, hence an
`Option`; `Count` defaults to the zero value on failure responses. -/
structure GetSchemaResponse where
  success : Bool
  message : String
  schema : Option SchemaInfo
  count : Nat
  deriving Repr, DecidableEq

/-! ## Schema projection (`buildSchemaInfo` and friends) -/

/-- `shouldIncludeMessage` (get_schema.go): empty filter list includes all,
otherwise the message's short name must equal some entry exactly. -/
def shouldIncludeMessage (message : DescriptorProto) (filters : List String) : Bool :=
  if filters.length = 0 then true
  else filters.any (fun filter => message.name = filter)

/-- `shouldIncludeService` (get_schema.go). -/
def shouldIncludeService (service : ServiceDescriptorProto) (filters : List String) : Bool :=
  if filters.length = 0 then true
  else filters.any (fun filter => service.name = filter)

/-- `shouldIncludeEnum` (get_schema.go). -/
def shouldIncludeEnum (enum : EnumDescriptorProto) (filters : List String) : Bool :=
  if filters.length = 0 then true
  else filters.any (fun filter => enum.name = filter)

/-- `convertMessageToInfo` (get_schema.go): one `FieldInfo` per field;
description/options are left empty by the code (TODO comments). -/
def convertMessageToInfo (message : DescriptorProto) (file : FileDescriptorProto) :
    MessageInfo :=
  { name := message.name
    fullName := message.name
    fields := message.field.map (fun field =>
      { name := field.name
        number := field.number
        type := field.typeName
        label := field.label
        description := ""
        default := field.defaultValue })
    file := file.name
    pkg := file.pkg
    description := "" }

/-- `convertServiceToInfo` (get_schema.go). -/
def convertServiceToInfo (service : ServiceDescriptorProto) (file : FileDescriptorProto) :
    ServiceInfo :=
  { name := service.name
    fullName := service.name
    methods := service.method.map (fun method =>
      { name := method.name
        inputType := method.inputType
        outputType := method.outputType
        clientStreaming := method.clientStreaming
        serverStreaming := method.serverStreaming
        description := "" })
    file := file.name
    pkg := file.pkg
    description := "" }

/-- `convertEnumToInfo` (get_schema.go). -/
def convertEnumToInfo (enum : EnumDescriptorProto) (file : FileDescriptorProto) :
    EnumInfo :=
  { name := enum.name
    fullName := enum.name
    values := enum.value.map (fun value =>
      { name := value.name
        number := value.number
        description := "" })
    file := file.name
    pkg := file.pkg
    description := "" }

/-- `convertFileToInfo` (get_schema.go). -/
def convertFileToInfo (file : FileDescriptorProto) : FileInfo :=
  { name := file.name
    pkg := file.pkg
    dependencies := file.dependency
    description := "" }

/-- One iteration of `buildSchemaInfo`'s message loop: append the message
if it passes the filter and bump `TotalMessages`/`TotalFields`. -/
def messageStep (file : FileDescriptorProto) (params : GetSchemaParams)
    (acc : SchemaInfo) (message : DescriptorProto) : SchemaInfo :=
  if shouldIncludeMessage message params.messageTypes then
    let messageInfo := convertMessageToInfo message file
    { acc with
      messages := acc.messages ++ [messageInfo]
      stats := { acc.stats with
        totalMessages := acc.stats.totalMessages + 1
        totalFields := acc.stats.totalFields + messageInfo.fields.length } }
  else acc

/-- The body of `buildSchemaInfo`'s message loop for one file. -/
def processMessages (file : FileDescriptorProto) (params : GetSchemaParams)
    (acc : SchemaInfo) : SchemaInfo :=
  file.messageType.foldl (messageStep file params) acc

/-- One iteration of `buildSchemaInfo`'s service loop. -/
def serviceStep (file : FileDescriptorProto) (params : GetSchemaParams)
    (acc : SchemaInfo) (service : ServiceDescriptorProto) : SchemaInfo :=
  if shouldIncludeService service params.serviceTypes then
    let serviceInfo := convertServiceToInfo service file
    { acc with
      services := acc.services ++ [serviceInfo]
      stats := { acc.stats with
        totalServices := acc.stats.totalServices + 1
        totalMethods := acc.stats.totalMethods + serviceInfo.methods.length } }
  else acc

/-- The body of `buildSchemaInfo`'s service loop for one file. -/
def processServices (file : FileDescriptorProto) (params : GetSchemaParams)
    (acc : SchemaInfo) : SchemaInfo :=
  file.service.foldl (serviceStep file params) acc

/-- One iteration of `buildSchemaInfo`'s enum loop. -/
def enumStep (file : FileDescriptorProto) (params : GetSchemaParams)
    (acc : SchemaInfo) (enum : EnumDescriptorProto) : SchemaInfo :=
  if shouldIncludeEnum enum params.enumTypes then
    let enumInfo := convertEnumToInfo enum file
    { acc with
      enums := acc.enums ++ [enumInfo]
      stats := { acc.stats with
        totalEnums := acc.stats.totalEnums + 1
        totalValues := acc.stats.totalValues + enumInfo.values.length } }
  else acc

/-- The body of `buildSchemaInfo`'s enum loop for one file. -/
def processEnums (file : FileDescriptorProto) (params : GetSchemaParams)
    (acc : SchemaInfo) : SchemaInfo :=
  file.enumType.foldl (enumStep file params) acc

/-- One iteration of `buildSchemaInfo`'s outer file loop. -/
def processFile (params : GetSchemaParams) (acc : SchemaInfo)
    (file : FileDescriptorProto) : SchemaInfo :=
  let acc :=
    if params.includeFileInfo then
      { acc with
        files := acc.files ++ [convertFileToInfo file]
        stats := { acc.stats with totalFiles := acc.stats.totalFiles + 1 } }
    else acc
  processEnums file params (processServices file params (processMessages file params acc))

/-- The empty `SchemaInfo` that `buildSchemaInfo` starts from. -/
def emptySchemaInfo : SchemaInfo :=
  { messages := [], services := [], enums := [], files := []
    stats := { totalMessages := 0, totalServices := 0, totalEnums := 0,
               totalFiles := 0, totalFields := 0, totalMethods := 0,
               totalValues := 0 } }

/-- `buildSchemaInfo` (get_schema.go, also part_014 over the reflective
descriptor API with identical structure): walk every file of the compiled
artifact in order, appending filtered declarations and bumping stats. -/
def buildSchemaInfo (compiledProtos : FileDescriptorSet) (params : GetSchemaParams) :
    SchemaInfo :=
  compiledProtos.file.foldl (processFile params) emptySchemaInfo

/-- `GetSchemaTool.Execute` (get_schema.go): the project-missing and
not-compiled guards, then projection; the Go function always returns a
`nil` error (failures are encoded in the response), modelled by `Except`
that is `.ok` on every path. -/
def getSchemaExecute (project : Option ProtobufProject) (params : GetSchemaParams) :
    Except String GetSchemaResponse :=
  match project with
  | none =>
      .ok { success := false
            message := "No project activated. Use activate_project first."
            schema := none, count := 0 }
  | some project =>
      match project.compiledProtos with
      | none =>
          .ok { success := false
                message := "Project not compiled. Use activate_project first."
                schema := none, count := 0 }
      | some compiledProtos =>
          let schemaInfo := buildSchemaInfo compiledProtos params
          let count := schemaInfo.stats.totalMessages + schemaInfo.stats.totalServices
            + schemaInfo.stats.totalEnums
          let m := schemaInfo.stats.totalMessages
          let sv := schemaInfo.stats.totalServices
          let en := schemaInfo.stats.totalEnums
          .ok { success := true
                message := s!"Retrieved schema information: {m} messages, {sv} services, {en} enums"
                schema := some schemaInfo
                count := count }

/-! ## `list_services` handlers -/

/-- `tools.ListServicesResponse` (services list elided; only the guard
branch is at issue in the claims). -/
structure ListServicesResponse where
  success : Bool
  message : String
  count : Nat
  deriving Repr, DecidableEq

/-- The project handle seen by the part_015 `list_services` handler: that
variant recompiles on every call, so the model carries the compile
outcome. -/
structure LSProject where
  compileResult : Except String (List ServiceDescriptorProto)

/-- `ListServicesTool.Handle` (part_015): nil-project guard, then
compile-and-list; all failures are encoded in the response, never in the
error return (hence `.ok` everywhere). -/
def listServicesHandle (project : Option LSProject) : Except String ListServicesResponse :=
  match project with
  | none =>
      .ok { success := false
            message := "No project activated. Use activate_project first."
            count := 0 }
  | some project =>
      match project.compileResult with
      | .error e =>
          .ok { success := false
                message := "Failed to compile proto files: " ++ e
                count := 0 }
      | .ok services =>
          let n := services.length
          .ok { success := true
                message := s!"Found {n} services"
                count := services.length }

/-- `ListServicesTool.Execute`/`Handle` of the descriptor-set variant
(part_016): nil-project guard, not-compiled guard, then listing. -/
def listServicesExecute (project : Option ProtobufProject) :
    Except String ListServicesResponse :=
  match project with
  | none =>
      .ok { success := false
            message := "No project activated. Use activate_project first."
            count := 0 }
  | some project =>
      match project.compiledProtos with
      | none =>
          .ok { success := false
                message := "Project not compiled. Use activate_project first."
                count := 0 }
      | some compiledProtos =>
          let services := compiledProtos.file.foldl
            (fun acc file => acc ++ file.service) []
          let n := services.length
          .ok { success := true
                message := s!"Found {n} services"
                count := services.length }

/-! ## Single-level glob matching

Port of Go's `path/filepath.Match`, the matcher used by `filepath.Glob`,
`resolveRecursivePattern` and `shouldIgnoreFile`.  Patterns support `*`
(any run of non-separator characters), `?` (one non-separator character),
`[...]`/`[^...]` character classes with ranges, and `\x` escapes.  Go
reports `ErrBadPattern` exactly for syntactically malformed patterns
(since Go 1.15 the whole pattern is validated even past a mismatch), so
the port validates the pattern up front and then matches purely.
Recursions are fuelled; each step consumes at least one character, so the
supplied fuel (length-based) is always sufficient. -/

/-- One class element, mirroring Go's `getEsc`: rejects `-` or `]` at
element start, a dangling escape, and a class that ends right after the
element (the class must still be closed by `]`). -/
def getEsc : List Char → Option (Char × List Char)
  | [] => none
  | c :: rest =>
    if c = '-' ∨ c = ']' then none
    else if c = '\\' then
      match rest with
      | [] => none
      | d :: rest2 => if rest2.isEmpty then none else some (d, rest2)
    else if rest.isEmpty then none else some (c, rest)

/-- The range-parsing loop of Go's `matchChunk` for a `[...]` class: one or
more elements (single characters or `lo-hi` ranges) terminated by `]`.
`nrange` counts parsed elements; `]` closes the class only after at least
one element, exactly as in the Go loop. -/
def parseClassItems : Nat → List Char → Nat → Option (List (Char × Char) × List Char)
  | 0, _, _ => none
  | _ + 1, ']' :: rest, _ + 1 => some ([], rest)
  | fuel + 1, chunk, nrange =>
    match getEsc chunk with
    | none => none
    | some (lo, chunk1) =>
      match chunk1 with
      | '-' :: chunk2 =>
        match getEsc chunk2 with
        | none => none
        | some (hi, chunk3) =>
          match parseClassItems fuel chunk3 (nrange + 1) with
          | none => none
          | some (ranges, rest) => some ((lo, hi) :: ranges, rest)
      | _ =>
        match parseClassItems fuel chunk1 (nrange + 1) with
        | none => none
        | some (ranges, rest) => some ((lo, lo) :: ranges, rest)

/-- Parse a whole character class (the text after `[`): optional `^`
negation, then the element list.  Fuel `length + 1` suffices because every
iteration consumes at least one character. -/
def parseClass (p : List Char) : Option (Bool × List (Char × Char) × List Char) :=
  match p with
  | '^' :: rest =>
    match parseClassItems (rest.length + 1) rest 0 with
    | some (ranges, r) => some (true, ranges, r)
    | none => none
  | _ =>
    match parseClassItems (p.length + 1) p 0 with
    | some (ranges, r) => some (false, ranges, r)
    | none => none

/-- Pattern syntax validation: `ErrBadPattern` holds exactly when this
returns `false` (dangling `\`, or a malformed/unterminated class). -/
def patternValidFuel : Nat → List Char → Bool
  | 0, _ => false
  | _ + 1, [] => true
  | fuel + 1, '\\' :: rest =>
    (match rest with
     | [] => false
     | _ :: rest2 => patternValidFuel fuel rest2)
  | fuel + 1, '[' :: rest =>
    (match parseClass rest with
     | none => false
     | some (_, _, rest2) => patternValidFuel fuel rest2)
  | fuel + 1, _ :: rest => patternValidFuel fuel rest

/-- Whether a glob pattern is syntactically valid. -/
def patternValid (p : List Char) : Bool := patternValidFuel (p.length + 1) p

/-- Pure matching of a valid pattern against a name.  `*` and `?` never
match the path separator, as in Go. -/
def matchPureFuel : Nat → List Char → List Char → Bool
  | 0, _, _ => false
  | _ + 1, [], n => n.isEmpty
  | fuel + 1, '*' :: p, n =>
    matchPureFuel fuel p n ||
      (match n with
       | [] => false
       | c :: n2 => decide (c ≠ '/') && matchPureFuel fuel ('*' :: p) n2)
  | fuel + 1, '?' :: p, n =>
    (match n with
     | [] => false
     | c :: n2 => decide (c ≠ '/') && matchPureFuel fuel p n2)
  | fuel + 1, '\\' :: rest, n =>
    (match rest, n with
     | c :: p, d :: n2 => decide (d = c) && matchPureFuel fuel p n2
     | _, _ => false)
  | fuel + 1, '[' :: p, n =>
    (match parseClass p, n with
     | some (neg, ranges, rest), d :: n2 =>
       (ranges.any (fun r => decide (r.1 ≤ d) && decide (d ≤ r.2)) != neg)
         && matchPureFuel fuel rest n2
     | _, _ => false)
  | fuel + 1, c :: p, n =>
    (match n with
     | [] => false
     | d :: n2 => decide (d = c) && matchPureFuel fuel p n2)

/-- Boolean glob match of a (pre-validated) pattern against a name. -/
def matchB (p : List Char) (name : String) : Bool :=
  matchPureFuel (p.length + name.data.length + 1) p name.data

/-- `filepath.Match`: `ErrBadPattern` for malformed patterns, otherwise the
boolean match result. -/
def filepathMatch (p : List Char) (name : String) : Except Unit Bool :=
  if patternValid p then .ok (matchB p name) else .error ()

/-! ## Filesystem model

The filesystem is modelled as its depth-first enumeration: a list of
nodes (regular files and directories) with absolute paths given as
segment lists rooted at `/` (the leading separator is implicit).  Go's
`filepath.Walk` and the directory reads inside `filepath.Glob` enumerate
in lexical order, so the model's list order is exactly Walk order:
depth-first, children of each directory in lexical order, every
directory listed before its contents, paths unique. -/

/-- One filesystem node: its absolute path segments and whether it is a
directory. -/
structure FSNode where
  path : List String
  isDir : Bool
  deriving Repr, DecidableEq

/-- A filesystem: its nodes in depth-first (Walk) order. -/
abbrev FS := List FSNode

/-- Base filename of a path (`filepath.Base` of a file path). -/
def baseNameSegs (p : List String) : String := (p.getLast?).getD ("")

/-- `os.Stat` existence: the root itself always exists; otherwise a node
with that path must exist. -/
def statExists (fs : FS) (path : List String) : Bool :=
  path.isEmpty || fs.any (fun node => node.path == path)

/-- Whether the path names a directory of the filesystem. -/
def isDirAt (fs : FS) (path : List String) : Bool :=
  fs.any (fun node => node.path == path && node.isDir)

/-- The regular files strictly below `path` (in Walk order). -/
def filesBelow (fs : FS) (path : List String) : List (List String) :=
  fs.filterMap (fun node =>
    if !node.isDir && path.isPrefixOf node.path && node.path.length > path.length
    then some node.path else none)

/-- `filepath.Walk` restricted to the non-directory callback calls: walking
the root or a directory visits the regular files below it in Walk order;
walking a regular file visits just that file; a missing path visits
nothing. -/
def walkFrom (fs : FS) (path : List String) : List (List String) :=
  if path.isEmpty then filesBelow fs path
  else if isDirAt fs path then filesBelow fs path
  else if statExists fs path then [path]
  else []

/-- The immediate children of `pre` whose name matches the pattern, in
enumeration (lexical) order; `dirOnly` restricts to directories, as Go's
glob does for the non-final pattern segments (a non-directory match cannot
be read and is silently skipped). -/
def childrenMatching (fs : FS) (pre : List String) (p : List Char)
    (dirOnly : Bool) : List (List String) :=
  fs.filterMap (fun node =>
    if node.path.length == pre.length + 1 && pre.isPrefixOf node.path
        && (!dirOnly || node.isDir)
        && matchB p (baseNameSegs node.path)
    then some node.path else none)

/-- The per-directory matching core of `filepath.Glob`: match the pattern
segments level by level starting from the root.  Intermediate segments
descend only into directories; the final segment matches files and
directories alike.  Matches appear in enumeration order, which for the
sorted model is Go's sorted Glob order. -/
def globSegsFrom (fs : FS) : List String → List (List Char) → List (List String)
  | _, [] => []
  | pre, [p] => childrenMatching fs pre p false
  | pre, p :: ps =>
    (childrenMatching fs pre p true).flatMap (fun d => globSegsFrom fs d ps)

/-- `strings.Split` on the path separator. -/
def splitOnSlash : List Char → List (List Char)
  | [] => [[]]
  | '/' :: rest => [] :: splitOnSlash rest
  | c :: rest =>
    match splitOnSlash rest with
    | [] => [[c]]
    | seg :: segs => (c :: seg) :: segs

/-- `filepath.Glob`: validate the whole pattern up front (Go's
`globWithLimit` reports `ErrBadPattern` before touching the filesystem),
then match the pattern segments against the tree. -/
def globGo (fs : FS) (patternStr : List Char) :
    Except Unit (List (List String)) :=
  if patternValid patternStr then .ok (globSegsFrom fs [] (splitOnSlash patternStr))
  else .error ()

/-- `filepath.Join(root, pattern)` for a root given as segments and a
pattern given as a string (no cleaning is needed on the inputs the
repository produces). -/
def joinPath (root : List String) (p : List Char) : List Char :=
  match root with
  | [] => p
  | _ =>
    let rootChars := (String.intercalate ("/") root).data
    if p.isEmpty then rootChars else rootChars ++ '/' :: p

/-- First index of a substring (`strings.Index`), `none` when absent. -/
def indexOfSub (s sub : List Char) : Option Nat :=
  (List.range (s.length + 1)).find? (fun i => sub.isPrefixOf (s.drop i))

/-- `strings.TrimSuffix`: drop the suffix once if present. -/
def trimSuffixList (s suffix : List Char) : List Char :=
  if suffix.isSuffixOf s then s.take (s.length - suffix.length) else s

/-- `strings.TrimPrefix`: drop the prefix once if present. -/
def trimPrefixList (s pre : List Char) : List Char :=
  if pre.isPrefixOf s then s.drop pre.length else s

/-- Segment list of a possibly-empty relative path string (an empty string
contributes no segments, matching `filepath.Join`'s treatment). -/
def segsOf (s : List Char) : List String :=
  if s.isEmpty then [] else (splitOnSlash s).map (fun cs => String.mk cs)

/-- Whether a pattern string is absolute (`filepath.IsAbs`). -/
def isAbsPattern (p : List Char) : Bool :=
  match p with
  | '/' :: _ => true
  | _ => false

/-! ## Pattern resolution (`internal/config`, part_004)

`config.ProjectConfig` of the pattern-based configuration: an ordered list
of glob pattern strings. -/

/-- `config.ProjectConfig` (part_004): the `proto_files` pattern list. -/
structure ProjectConfig where
  protoFiles : List (List Char)

/-- The error-propagating filter inside `resolveRecursivePattern`'s walk
callback: match each walked file's base name; a `filepath.Match` error
aborts the walk. -/
def filterMatchesByBase (filePat : List Char) :
    List (List String) → Except Unit (List (List String))
  | [] => .ok []
  | p :: ps =>
    match filepathMatch filePat (baseNameSegs p) with
    | .error e => .error e
    | .ok true =>
      match filterMatchesByBase filePat ps with
      | .error e => .error e
      | .ok rest => .ok (p :: rest)
    | .ok false => filterMatchesByBase filePat ps

/-- `resolveRecursivePattern` (part_004): split at the first `**` into a
base directory (joined onto the project root, with one trailing `/`
trimmed) and a file pattern (one leading `/` trimmed); a missing base
directory contributes zero matches without error; otherwise walk the base
directory and keep the files whose base name matches.  Without `**` it
falls back to a plain glob of the joined pattern. -/
def resolveRecursivePattern (fs : FS) (pattern : List Char)
    (projectRoot : List String) : Except Unit (List (List String)) :=
  match indexOfSub pattern ['*', '*'] with
  | none => globGo fs (joinPath projectRoot pattern)
  | some starStarIndex =>
    let basePart := trimSuffixList (pattern.take starStarIndex) ['/']
    let filePat := trimPrefixList (pattern.drop (starStarIndex + 2)) ['/']
    let baseDir := projectRoot ++ segsOf basePart
    if statExists fs baseDir then filterMatchesByBase filePat (walkFrom fs baseDir)
    else .ok []

/-- The loop body of `ResolveProtoFiles` (part_004): per pattern, absolute
patterns glob verbatim, relative patterns with `**` go through
`resolveRecursivePattern`, others glob relative to the project root;
matches are appended; the first error aborts the whole call. -/
def resolveProtoFilesLoop (fs : FS) (projectRoot : List String) :
    List (List Char) → List (List String) → Except Unit (List (List String))
  | [], resolvedFiles => .ok resolvedFiles
  | pattern :: rest, resolvedFiles =>
    if isAbsPattern pattern then
      match globGo fs (pattern.drop 1) with
      | .error e => .error e
      | .ok ms => resolveProtoFilesLoop fs projectRoot rest (resolvedFiles ++ ms)
    else if (indexOfSub pattern ['*', '*']).isSome then
      match resolveRecursivePattern fs pattern projectRoot with
      | .error e => .error e
      | .ok ms => resolveProtoFilesLoop fs projectRoot rest (resolvedFiles ++ ms)
    else
      match globGo fs (joinPath projectRoot pattern) with
      | .error e => .error e
      | .ok ms => resolveProtoFilesLoop fs projectRoot rest (resolvedFiles ++ ms)

/-- `config.ResolveProtoFiles` (part_004). -/
def resolveProtoFiles (fs : FS) (config : ProjectConfig)
    (projectRoot : List String) : Except Unit (List (List String)) :=
  resolveProtoFilesLoop fs projectRoot config.protoFiles []

/-- What one pattern of the configuration contributes, read off the three
branches of the loop body.  Used to characterize the loop's output as a
plain concatenation. -/
def resolveOnePattern (fs : FS) (projectRoot : List String)
    (pattern : List Char) : Except Unit (List (List String)) :=
  if isAbsPattern pattern then globGo fs (pattern.drop 1)
  else if (indexOfSub pattern ['*', '*']).isSome then
    resolveRecursivePattern fs pattern projectRoot
  else globGo fs (joinPath projectRoot pattern)

/-! ## File discovery of the compiler variant (`internal/compiler/protobuf.go`) -/

/-- The configuration fields read by `findProtoFiles`/`shouldIgnoreFile`:
search directories (as path segments under the project root) and ignore
patterns. -/
structure CompilerConfig where
  protoPaths : List (List String)
  includePaths : List (List String)
  ignoredPatterns : List (List Char)

/-- `shouldIgnoreFile` (protobuf.go): match each ignore pattern against the
file's base name; a malformed pattern is skipped (`continue`), it neither
matches nor fails the call. -/
def shouldIgnoreFile (ignoredPatterns : List (List Char)) (filePath : List String) : Bool :=
  match ignoredPatterns with
  | [] => false
  | pattern :: rest =>
    match filepathMatch pattern (baseNameSegs filePath) with
    | .error _ => shouldIgnoreFile rest filePath
    | .ok true => true
    | .ok false => shouldIgnoreFile rest filePath

/-- Join pattern segments with `/` into one pattern string (the
`filepath.Join` used to build the glob patterns of `findProtoFiles`). -/
def joinSegsPattern (segs : List (List Char)) : List Char :=
  match segs with
  | [] => []
  | [s] => s
  | s :: rest => s ++ '/' :: joinSegsPattern rest

/-- `filepath.Rel(projectRoot, match)` for a match under the root: strip
the root prefix (the only case `findProtoFiles` exercises). -/
def relToRoot (projectRoot : List String) (m : List String) : List String :=
  m.drop projectRoot.length

/-- The dedup-guarded append of `findProtoFiles`' simple-pattern loop. -/
def appendUnique (protoFiles : List (List String)) (relPath : List String) :
    List (List String) :=
  if protoFiles.contains relPath then protoFiles else protoFiles ++ [relPath]

/-- The per-search-path body of `findProtoFiles` (protobuf.go): glob
`<path>/**/*.proto` (appending every non-ignored match, without any
duplicate check), then glob `<path>/*.proto` (appending non-ignored
matches only if not already present). -/
def findProtoFilesStep (fs : FS) (cfg : CompilerConfig)
    (projectRoot : List String) (protoFiles : List (List String))
    (searchPath : List String) : Except Unit (List (List String)) :=
  let absolutePath := projectRoot ++ searchPath
  let recPattern := joinSegsPattern (absolutePath.map String.data
    ++ [['*', '*'], "*.proto".data])
  match globGo fs recPattern with
  | .error e => .error e
  | .ok ms =>
    let protoFiles := ms.foldl (fun acc m =>
      if shouldIgnoreFile cfg.ignoredPatterns m then acc
      else acc ++ [relToRoot projectRoot m]) protoFiles
    let simplePattern := joinSegsPattern (absolutePath.map String.data
      ++ ["*.proto".data])
    match globGo fs simplePattern with
    | .error e => .error e
    | .ok simpleMatches =>
      .ok (simpleMatches.foldl (fun acc m =>
        if shouldIgnoreFile cfg.ignoredPatterns m then acc
        else appendUnique acc (relToRoot projectRoot m)) protoFiles)

/-- `findProtoFiles` (protobuf.go): fold the per-search-path step over
`ProtoPaths ++ IncludePaths`. -/
def findProtoFiles (fs : FS) (cfg : CompilerConfig)
    (projectRoot : List String) : Except Unit (List (List String)) :=
  (cfg.protoPaths ++ cfg.includePaths).foldlM
    (findProtoFilesStep fs cfg projectRoot) []

/-! ## Import-root relativization (`CompileProtos`, part_009 and part_008)

Paths as Go strings: an absolute/relative flag plus segments.  The string
forms differ whenever the flags differ, which is what the Go comparisons
below observe. -/

/-- A Go path value: `abs` mirrors `filepath.IsAbs`. -/
structure GoPath where
  abs : Bool
  segs : List String
  deriving Repr, DecidableEq

/-- Length of the longest common segment run. -/
def commonPrefixLen : List String → List String → Nat
  | a :: as, b :: bs => if a = b then commonPrefixLen as bs + 1 else 0
  | _, _ => 0

/-- `filepath.Rel(base, targ)` for the case the repository exercises (both
paths rooted, or both relative with a shared prefix): climb out of the
uncommon part of `base` with `..` segments, then descend into `targ`;
equal paths give `.`.  Mixing an absolute with a relative path is an
error, as in Go. -/
def filepathRel (basep targ : GoPath) : Except Unit GoPath :=
  if basep.abs != targ.abs then .error ()
  else
    let c := commonPrefixLen basep.segs targ.segs
    let up := List.replicate (basep.segs.length - c) ("..")
    let rest := targ.segs.drop c
    let r := up ++ rest
    .ok { abs := false, segs := if r.isEmpty then ["."] else r }

/-- `strings.HasPrefix(rel, "..")` on the string form of a relative path:
true exactly when the first segment starts with `..`. -/
def relEscapesUp (p : GoPath) : Bool :=
  match p.segs.head? with
  | some s => (['.', '.'] : List Char).isPrefixOf s.data
  | none => false

/-- `filepath.Base` of a Go path. -/
def goPathBase (p : GoPath) : String :=
  ((p.segs.getLast?).getD (if p.abs then ("/") else (".")))

/-- The root-search loop of part_009's `CompileProtos` (lines 137–145): the
first import path whose `Rel` result does not escape upward homes the
file. -/
def findRelUnderRoots : List GoPath → GoPath → Option GoPath
  | [], _ => none
  | importPath :: rest, protoFile =>
    match filepathRel importPath protoFile with
    | .ok relPath =>
      if relEscapesUp relPath then findRelUnderRoots rest protoFile
      else some relPath
    | .error _ => findRelUnderRoots rest protoFile

/-- The relativization block of part_009's `CompileProtos` (lines 134–154):
absolute files are homed under the first fitting import root; a file under
no root is replaced by its base filename (`// If not found in any import
path, use the filename only`); relative files pass through unchanged.
The block is total: no failure outcome exists. -/
def relativizeProtoFiles (resolvedImportPaths : List GoPath)
    (protoFiles : List GoPath) : List GoPath :=
  protoFiles.foldl (fun acc protoFile =>
    if protoFile.abs then
      match findRelUnderRoots resolvedImportPaths protoFile with
      | some relPath => acc ++ [relPath]
      | none => acc ++ [{ abs := false, segs := [goPathBase protoFile] }]
    else acc ++ [protoFile]) []

/-- The root-search loop of part_008's `CompileProtos` (lines 114–123): the
first import path for which `Rel` succeeds with a non-absolute result
different from the file itself is taken; with no import paths the file is
simply skipped. -/
def findRel008 : List GoPath → GoPath → Option GoPath
  | [], _ => none
  | importPath :: rest, f =>
    match filepathRel importPath f with
    | .ok relPath =>
      if relPath.abs == false && relPath != f then some relPath
      else findRel008 rest f
    | .error _ => findRel008 rest f

/-- The relativization block of part_008's `CompileProtos` (lines 114–123):
files with no accepted root are dropped from the list without error. -/
def relativeProtoFiles008 (absImportPaths protoFiles : List GoPath) : List GoPath :=
  protoFiles.foldl (fun acc f =>
    match findRel008 absImportPaths f with
    | some r => acc ++ [r]
    | none => acc) []

/-! ## Project activation (`Handle` in part_013, `Execute` in
`internal/tools/activate.go`)

The configuration loader, project construction and the compiler
collaborator are external steps; their outcomes enter the model as an
environment record, exactly one outcome per step, consumed in the order
the handler consults them. -/

/-- The outcome of each external step of one activation request. -/
structure ActivationEnv where
  projectPathEmpty : Bool
  getwdOk : Bool
  absPathOk : Bool
  projectExists : Bool
  configLoad : Except String ProjectConfig
  projectCreate : Except String Unit
  compileResult : Except String FileDescriptorSet

/-- `ActivateProjectResponse` (part_013): summary counts plus the result
flags; the `mcp.NewToolResultError` returns are modelled as failure
responses as well (they carry no success flag and no new project state). -/
structure ActivateResponse where
  success : Bool
  message : String
  protoFiles : Nat
  services : Nat
  messages : Nat
  enums : Nat
  deriving Repr, DecidableEq

/-- A failure `ActivateProjectResponse` with the given message. -/
def activateFailure (msg : String) : ActivateResponse :=
  { success := false, message := msg, protoFiles := 0, services := 0,
    messages := 0, enums := 0 }

/-- `GetServices` of the descriptor-set compiler: error when not compiled,
otherwise all services of all files. -/
def projGetServices (p : ProtobufProject) : Except String (List ServiceDescriptorProto) :=
  match p.compiledProtos with
  | none => .error ("project not compiled yet, call CompileProtos first")
  | some s => .ok (s.file.foldl (fun acc f => acc ++ f.service) [])

/-- `GetMessages` of the descriptor-set compiler. -/
def projGetMessages (p : ProtobufProject) : Except String (List DescriptorProto) :=
  match p.compiledProtos with
  | none => .error ("project not compiled yet, call CompileProtos first")
  | some s => .ok (s.file.foldl (fun acc f => acc ++ f.messageType) [])

/-- `GetEnums` of the descriptor-set compiler. -/
def projGetEnums (p : ProtobufProject) : Except String (List EnumDescriptorProto) :=
  match p.compiledProtos with
  | none => .error ("project not compiled yet, call CompileProtos first")
  | some s => .ok (s.file.foldl (fun acc f => acc ++ f.enumType) [])

/-- `ActivateProjectTool.Handle` (part_013) as a transition on the
project-manager state: parameter check, absolute-path resolution,
`config.ProjectExists`, `config.LoadProjectConfig`,
`compiler.NewProtobufProject`, `CompileProtos`; only after a successful
compile does `SetProject` replace the current project, and the statistic
getters run on the freshly compiled project. -/
def activateHandle (env : ActivationEnv) (prev : Option ProtobufProject) :
    Option ProtobufProject × ActivateResponse :=
  if env.projectPathEmpty then
    (prev, activateFailure ("project_path parameter is required"))
  else if !env.absPathOk then
    (prev, activateFailure ("Failed to get absolute path"))
  else if !env.projectExists then
    (prev, activateFailure
      ("Project not initialized. Run 'go run cmd/protobuf-mcp/main.go init' first."))
  else
    match env.configLoad with
    | .error e => (prev, activateFailure ("Failed to load project configuration: " ++ e))
    | .ok _ =>
      match env.projectCreate with
      | .error e => (prev, activateFailure ("Failed to create protobuf project: " ++ e))
      | .ok _ =>
        match env.compileResult with
        | .error e => (prev, activateFailure ("Failed to compile proto files: " ++ e))
        | .ok artifact =>
          let project : ProtobufProject := { compiledProtos := some artifact }
          let cur := some project
          match projGetServices project with
          | .error e => (cur, activateFailure ("Failed to get services: " ++ e))
          | .ok services =>
            match projGetMessages project with
            | .error e => (cur, activateFailure ("Failed to get messages: " ++ e))
            | .ok messages =>
              match projGetEnums project with
              | .error e => (cur, activateFailure ("Failed to get enums: " ++ e))
              | .ok enums =>
                (cur,
                 { success := true
                   message := "Project activated successfully"
                   protoFiles := artifact.file.length
                   services := services.length
                   messages := messages.length
                   enums := enums.length })

/-- `ActivateProjectTool.Execute` (activate.go): same staging with the
working-directory fallback for an empty path and a direct `os.Stat` on the
configuration file; `t.currentProject = project` happens only after
`CompileProtos` succeeds. -/
def activateExecute (env : ActivationEnv) (prev : Option ProtobufProject) :
    Option ProtobufProject × ActivateResponse :=
  if env.projectPathEmpty && !env.getwdOk then
    (prev, activateFailure ("Failed to get current directory"))
  else if !env.absPathOk then
    (prev, activateFailure ("Failed to resolve absolute path"))
  else if !env.projectExists then
    (prev, activateFailure
      ("Project not initialized. Run 'go run cmd/protobuf-mcp/main.go init' first."))
  else
    match env.configLoad with
    | .error e => (prev, activateFailure ("Failed to load project configuration: " ++ e))
    | .ok _ =>
      match env.projectCreate with
      | .error e => (prev, activateFailure ("Failed to create protobuf project: " ++ e))
      | .ok _ =>
        match env.compileResult with
        | .error e => (prev, activateFailure ("Failed to compile proto files: " ++ e))
        | .ok artifact =>
          let project : ProtobufProject := { compiledProtos := some artifact }
          let cur := some project
          match projGetServices project with
          | .error e => (cur, activateFailure ("Failed to get services: " ++ e))
          | .ok services =>
            match projGetMessages project with
            | .error e => (cur, activateFailure ("Failed to get messages: " ++ e))
            | .ok messages =>
              match projGetEnums project with
              | .error e => (cur, activateFailure ("Failed to get enums: " ++ e))
              | .ok enums =>
                let nf := artifact.file.length
                (cur,
                 { success := true
                   message := s!"Project activated successfully with {nf} proto files"
                   protoFiles := artifact.file.length
                   services := services.length
                   messages := messages.length
                   enums := enums.length })

/-! ## Derived characterizations and fixtures used by the theorems -/

/-- Per-pattern concatenation semantics: what the `ResolveProtoFiles` loop
computes, written as a plain concatenation of the per-pattern results
(first error wins). -/
def resolveAllConcat (fs : FS) (projectRoot : List String) :
    List (List Char) → Except Unit (List (List String))
  | [] => .ok []
  | p :: ps =>
    match resolveOnePattern fs projectRoot p with
    | .error e => .error e
    | .ok ms =>
      match resolveAllConcat fs projectRoot ps with
      | .error e => .error e
      | .ok rest => .ok (ms ++ rest)

/-- The absolute-path string of a model path. -/
def joinedPath (p : List String) : String :=
  "/" ++ String.intercalate ("/") p

/-- Lexicographic comparison of character lists (string order). -/
def charListLe : List Char → List Char → Bool
  | [], _ => true
  | _ :: _, [] => false
  | a :: as, b :: bs => if a = b then charListLe as bs else decide (a < b)

/-- Lexicographic comparison of absolute path strings. -/
def pathLeB (a b : List String) : Bool :=
  charListLe (joinedPath a).data (joinedPath b).data

/-- Whether a path list is sorted lexicographically by absolute path. -/
def pathsSortedB (l : List (List String)) : Bool :=
  (l.zip l.tail).all (fun pr => pathLeB pr.1 pr.2)

/-- The Stats invariant of a schema view: every counter equals the size of
the collection it describes. -/
def StatsConsistent (s : SchemaInfo) : Prop :=
  s.stats.totalMessages = s.messages.length ∧
  s.stats.totalServices = s.services.length ∧
  s.stats.totalEnums = s.enums.length ∧
  s.stats.totalFiles = s.files.length ∧
  s.stats.totalFields = (s.messages.map (fun m => m.fields.length)).sum ∧
  s.stats.totalMethods = (s.services.map (fun sv => sv.methods.length)).sum ∧
  s.stats.totalValues = (s.enums.map (fun e => e.values.length)).sum

/-- Filesystem of the spec's glob-union example: `a.proto` at top level and
`sub/b.proto`. -/
def globDemoFS : FS :=
  [⟨["a.proto"], false⟩, ⟨["sub"], true⟩, ⟨["sub", "b.proto"], false⟩]

/-- The spec's glob-union example configuration. -/
def globDemoConfig : ProjectConfig :=
  { protoFiles := ["*.proto".data, "**/*.proto".data] }

/-- Two files whose pattern-order and lexicographic order disagree. -/
def orderDemoFS : FS := [⟨["a.proto"], false⟩, ⟨["b.proto"], false⟩]

/-- Patterns listed against lexicographic order. -/
def orderDemoConfig : ProjectConfig :=
  { protoFiles := ["b.proto".data, "a.proto".data] }

/-- A search tree for `findProtoFiles` with one top-level proto file. -/
def ignoreDemoFS : FS := [⟨["protos"], true⟩, ⟨["protos", "a.proto"], false⟩]

/-- A compiler configuration whose ignore list holds a malformed glob. -/
def ignoreDemoConfig : CompilerConfig :=
  { protoPaths := [["protos"]], includePaths := [], ignoredPatterns := ["[".data] }

/-- A filesystem for the recursive-pattern example. -/
def recDemoFS : FS :=
  [⟨["proto"], true⟩, ⟨["proto", "a.proto"], false⟩, ⟨["proto", "readme.txt"], false⟩,
   ⟨["proto", "sub"], true⟩, ⟨["proto", "sub", "b.proto"], false⟩]

/-- The default recursive source pattern. -/
def recDemoPattern : List Char := "proto/**/*.proto".data

/-- An artifact defining messages `User` and `Product` in one file. -/
def userProductSet : FileDescriptorSet :=
  { file := [{ name := "user.proto", pkg := "demo", dependency := []
               messageType := [{ name := "User", field := [] },
                               { name := "Product", field := [] }]
               service := [], enumType := [] }] }

/-- `get_schema` parameters filtering messages to `User` only. -/
def userFilterParams : GetSchemaParams :=
  { messageTypes := ["User"], serviceTypes := [], enumTypes := []
    includeFileInfo := false }

/-- Parameters with no filters. -/
def defaultParams : GetSchemaParams :=
  { messageTypes := [], serviceTypes := [], enumTypes := [], includeFileInfo := false }

/-- A compiled project with an empty artifact. -/
def emptyProject : ProtobufProject := { compiledProtos := some { file := [] } }

/-- An import root and a file outside it, for the relativization
counterexample. -/
def rootProtoImport : GoPath := { abs := true, segs := ["root", "proto"] }

/-- An absolute source file outside every configured import root. -/
def outsideFile : GoPath := { abs := true, segs := ["outside", "x.proto"] }

/-! ## Supporting lemmas -/

/-- Shared shape of the three allow-list filters. -/
theorem includeFilterAux (nm : String) (filters : List String) :
    (if filters.length = 0 then true else filters.any (fun f => nm = f)) = true ↔
      (filters = [] ∨ nm ∈ filters) := by
  cases filters with
  | nil => simp
  | cons a l =>
    rw [if_neg (by simp)]
    constructor
    · intro h
      rcases List.any_eq_true.mp h with ⟨x, hx, he⟩
      exact Or.inr ((of_decide_eq_true he) ▸ hx)
    · intro h
      rcases h with h | h
      · cases h
      · exact List.any_eq_true.mpr ⟨nm, h, by simp⟩

/-- `foldl` preserves any invariant its step preserves. -/
theorem statsConsistent_foldl {α : Type} (step : SchemaInfo → α → SchemaInfo)
    (hstep : ∀ a x, StatsConsistent a → StatsConsistent (step a x)) :
    ∀ (l : List α) (acc : SchemaInfo),
      StatsConsistent acc → StatsConsistent (l.foldl step acc) := by
  intro l
  induction l with
  | nil => intro acc h; exact h
  | cons x xs ih => intro acc h; exact ih _ (hstep _ _ h)

/-- The message step keeps every counter equal to its collection size. -/
theorem statsConsistent_messageStep (file : FileDescriptorProto)
    (params : GetSchemaParams) (acc : SchemaInfo) (m : DescriptorProto)
    (h : StatsConsistent acc) : StatsConsistent (messageStep file params acc m) := by
  obtain ⟨h1, h2, h3, h4, h5, h6, h7⟩ := h
  unfold messageStep
  split
  · exact ⟨by simp [h1], h2, h3, h4, by simp [h5], h6, h7⟩
  · exact ⟨h1, h2, h3, h4, h5, h6, h7⟩

/-- The service step keeps every counter equal to its collection size. -/
theorem statsConsistent_serviceStep (file : FileDescriptorProto)
    (params : GetSchemaParams) (acc : SchemaInfo) (sv : ServiceDescriptorProto)
    (h : StatsConsistent acc) : StatsConsistent (serviceStep file params acc sv) := by
  obtain ⟨h1, h2, h3, h4, h5, h6, h7⟩ := h
  unfold serviceStep
  split
  · exact ⟨h1, by simp [h2], h3, h4, h5, by simp [h6], h7⟩
  · exact ⟨h1, h2, h3, h4, h5, h6, h7⟩

/-- The enum step keeps every counter equal to its collection size. -/
theorem statsConsistent_enumStep (file : FileDescriptorProto)
    (params : GetSchemaParams) (acc : SchemaInfo) (e : EnumDescriptorProto)
    (h : StatsConsistent acc) : StatsConsistent (enumStep file params acc e) := by
  obtain ⟨h1, h2, h3, h4, h5, h6, h7⟩ := h
  unfold enumStep
  split
  · exact ⟨h1, h2, by simp [h3], h4, h5, h6, by simp [h7]⟩
  · exact ⟨h1, h2, h3, h4, h5, h6, h7⟩

/-- One file of `buildSchemaInfo` keeps every counter equal to its
collection size. -/
theorem statsConsistent_processFile (params : GetSchemaParams)
    (acc : SchemaInfo) (file : FileDescriptorProto)
    (h : StatsConsistent acc) : StatsConsistent (processFile params acc file) := by
  unfold processFile processMessages processServices processEnums
  refine statsConsistent_foldl _ (statsConsistent_enumStep file params) _ _ ?_
  refine statsConsistent_foldl _ (statsConsistent_serviceStep file params) _ _ ?_
  refine statsConsistent_foldl _ (statsConsistent_messageStep file params) _ _ ?_
  obtain ⟨h1, h2, h3, h4, h5, h6, h7⟩ := h
  split
  · exact ⟨h1, h2, h3, by simp [h4], h5, h6, h7⟩
  · exact ⟨h1, h2, h3, h4, h5, h6, h7⟩

/-! ## Claim theorems -/

/-- C2: for every `list_services` or `get_schema` call made with no current
project, the operation returns `success = false` with the exact message
"No project activated. Use activate_project first." and raises no error
(the error component of the result is always `nil`/`.ok`). -/
theorem noProject_guard_exact_message (params : GetSchemaParams) :
    getSchemaExecute none params =
      .ok { success := false
            message := "No project activated. Use activate_project first."
            schema := none, count := 0 } ∧
    listServicesHandle none =
      .ok { success := false
            message := "No project activated. Use activate_project first."
            count := 0 } ∧
    listServicesExecute none =
      .ok { success := false
            message := "No project activated. Use activate_project first."
            count := 0 } :=
  ⟨rfl, rfl, rfl⟩

/-- C5: every Stats field of the schema view built by `buildSchemaInfo`
equals the size of the collection it counts: `TotalMessages`,
`TotalServices`, `TotalEnums`, `TotalFiles` are the lengths of the emitted
lists, and `TotalFields`/`TotalMethods`/`TotalValues` are the sums of the
per-entry sizes of the emitted messages/services/enums. -/
theorem stats_equal_collection_sizes (set : FileDescriptorSet)
    (params : GetSchemaParams) :
    (buildSchemaInfo set params).stats.totalMessages =
      (buildSchemaInfo set params).messages.length ∧
    (buildSchemaInfo set params).stats.totalServices =
      (buildSchemaInfo set params).services.length ∧
    (buildSchemaInfo set params).stats.totalEnums =
      (buildSchemaInfo set params).enums.length ∧
    (buildSchemaInfo set params).stats.totalFiles =
      (buildSchemaInfo set params).files.length ∧
    (buildSchemaInfo set params).stats.totalFields =
      ((buildSchemaInfo set params).messages.map (fun m => m.fields.length)).sum ∧
    (buildSchemaInfo set params).stats.totalMethods =
      ((buildSchemaInfo set params).services.map (fun sv => sv.methods.length)).sum ∧
    (buildSchemaInfo set params).stats.totalValues =
      ((buildSchemaInfo set params).enums.map (fun e => e.values.length)).sum :=
  statsConsistent_foldl (processFile params)
    (statsConsistent_processFile params) set.file emptySchemaInfo
    ⟨rfl, rfl, rfl, rfl, rfl, rfl, rfl⟩

/-- C6: each of the three declaration filters of `get_schema` includes a
declaration exactly when its filter list is empty or contains the
declaration's short name; filtering the `User`/`Product` artifact by
`message_types = ["User"]` emits exactly one message, named `User`, with
`Stats.total_messages = 1`. -/
theorem exact_allowlist_filter :
    (∀ (message : DescriptorProto) (filters : List String),
        shouldIncludeMessage message filters = true ↔
          (filters = [] ∨ message.name ∈ filters)) ∧
    (∀ (service : ServiceDescriptorProto) (filters : List String),
        shouldIncludeService service filters = true ↔
          (filters = [] ∨ service.name ∈ filters)) ∧
    (∀ (enum : EnumDescriptorProto) (filters : List String),
        shouldIncludeEnum enum filters = true ↔
          (filters = [] ∨ enum.name ∈ filters)) ∧
    (buildSchemaInfo userProductSet userFilterParams).messages.map
      (fun m => m.name) = ["User"] ∧
    (buildSchemaInfo userProductSet userFilterParams).stats.totalMessages = 1 :=
  ⟨fun m filters => includeFilterAux m.name filters,
   fun sv filters => includeFilterAux sv.name filters,
   fun e filters => includeFilterAux e.name filters,
   rfl, rfl⟩

/-- C10: every successful `get_schema` response carries a schema, and its
top-level `Count` equals `TotalMessages + TotalServices + TotalEnums` of
that schema's Stats (files, fields, methods and enum values are not
counted). -/
theorem count_equals_stats_sum (project : Option ProtobufProject)
    (params : GetSchemaParams) (r : GetSchemaResponse)
    (h : getSchemaExecute project params = .ok r) (hs : r.success = true) :
    ∃ s, r.schema = some s ∧
      r.count = s.stats.totalMessages + s.stats.totalServices + s.stats.totalEnums := by
  cases project with
  | none =>
    simp only [getSchemaExecute, Except.ok.injEq] at h
    rw [← h] at hs
    cases hs
  | some p =>
    cases hp : p.compiledProtos with
    | none =>
      simp only [getSchemaExecute, hp, Except.ok.injEq] at h
      rw [← h] at hs
      cases hs
    | some set =>
      simp only [getSchemaExecute, hp, Except.ok.injEq] at h
      exact ⟨buildSchemaInfo set params, by rw [← h], by rw [← h]⟩

/-- C10 witness: the theorem applied to a concrete compiled (empty)
artifact. -/
theorem count_equals_stats_sum_witness :
    ∃ s, ({ success := true
            message := "Retrieved schema information: 0 messages, 0 services, 0 enums"
            schema := some emptySchemaInfo
            count := 0 } : GetSchemaResponse).schema = some s ∧
      ({ success := true
         message := "Retrieved schema information: 0 messages, 0 services, 0 enums"
         schema := some emptySchemaInfo
         count := 0 } : GetSchemaResponse).count =
        s.stats.totalMessages + s.stats.totalServices + s.stats.totalEnums :=
  count_equals_stats_sum (some emptyProject) defaultParams _ rfl rfl

/-- C9: an activation request that fails at any stage leaves the current
project untouched, in both the part_013 `Handle` and the activate.go
`Execute` variants: the state is replaced only on the success path, after
`CompileProtos` has succeeded. -/
theorem failed_activation_keeps_project (env : ActivationEnv)
    (prev : Option ProtobufProject) :
    ((activateHandle env prev).2.success = false →
      (activateHandle env prev).1 = prev) ∧
    ((activateExecute env prev).2.success = false →
      (activateExecute env prev).1 = prev) := by
  obtain ⟨pe, gw, ab, pex, cl, pc, cr⟩ := env
  constructor <;> intro h <;>
    cases pe <;> cases gw <;> cases ab <;> cases pex <;>
    cases cl <;> cases pc <;> cases cr <;>
    simp_all [activateHandle, activateExecute, projGetServices,
      projGetMessages, projGetEnums, activateFailure]

/-- C9 witness: a concrete activation whose compile step fails, run against
a previously activated project; the state is unchanged. -/
theorem failed_activation_keeps_project_witness :
    (activateHandle
      { projectPathEmpty := false, getwdOk := true, absPathOk := true
        projectExists := true, configLoad := .ok { protoFiles := [] }
        projectCreate := .ok (), compileResult := .error ("syntax error") }
      (some emptyProject)).1 = some emptyProject ∧
    (activateExecute
      { projectPathEmpty := false, getwdOk := true, absPathOk := true
        projectExists := true, configLoad := .ok { protoFiles := [] }
        projectCreate := .ok (), compileResult := .error ("syntax error") }
      (some emptyProject)).1 = some emptyProject :=
  ⟨(failed_activation_keeps_project _ _).1 rfl,
   (failed_activation_keeps_project _ _).2 rfl⟩

/-- A path that fails the `os.Stat` probe contributes nothing to a walk. -/
theorem walkFrom_missing (fs : FS) (path : List String)
    (h : statExists fs path = false) : walkFrom fs path = [] := by
  unfold statExists at h
  rw [Bool.or_eq_false_iff] at h
  obtain ⟨h1, h2⟩ := h
  have hd : isDirAt fs path = false := by
    unfold isDirAt
    rw [List.any_eq_false] at h2 ⊢
    intro node hn hcontra
    rw [Bool.and_eq_true] at hcontra
    exact h2 node hn hcontra.1
  unfold walkFrom
  rw [h1, hd]
  simp [statExists, h1, h2]

/-- With a valid file pattern, the walk filter of `resolveRecursivePattern`
never errors and keeps exactly the paths whose base name matches. -/
theorem filterMatchesByBase_valid (filePat : List Char)
    (hv : patternValid filePat = true) :
    ∀ l : List (List String),
      filterMatchesByBase filePat l =
        .ok (l.filter (fun p => matchB filePat (baseNameSegs p))) := by
  intro l
  induction l with
  | nil => rfl
  | cons p ps ih =>
    unfold filterMatchesByBase
    simp only [filepathMatch, hv, if_true]
    cases hm : matchB filePat (baseNameSegs p) with
    | false => simpa [List.filter_cons, hm] using ih
    | true => simp [List.filter_cons, hm, ih]

/-- C7: a pattern with a recursive segment is split at the first `**` into
a base directory and a file pattern; a missing base directory yields zero
matches without error; otherwise the result is exactly the walked files
whose base filename (never the full relative path) matches the file
pattern by single-level glob matching. -/
theorem recursive_pattern_semantics (fs : FS) (projectRoot : List String)
    (pattern : List Char) (i : Nat)
    (hidx : indexOfSub pattern ['*', '*'] = some i) :
    (statExists fs (projectRoot ++ segsOf (trimSuffixList (pattern.take i) ['/'])) = false →
        resolveRecursivePattern fs pattern projectRoot = .ok []) ∧
    (patternValid (trimPrefixList (pattern.drop (i + 2)) ['/']) = true →
        resolveRecursivePattern fs pattern projectRoot =
          .ok ((walkFrom fs
              (projectRoot ++ segsOf (trimSuffixList (pattern.take i) ['/']))).filter
            (fun p => matchB (trimPrefixList (pattern.drop (i + 2)) ['/'])
              (baseNameSegs p)))) := by
  constructor
  · intro hst
    unfold resolveRecursivePattern
    rw [hidx]
    simp [hst]
  · intro hv
    unfold resolveRecursivePattern
    rw [hidx]
    cases hst : statExists fs
        (projectRoot ++ segsOf (trimSuffixList (pattern.take i) ['/'])) with
    | false => simp [hst, walkFrom_missing fs _ hst]
    | true => simp [hst, filterMatchesByBase_valid _ hv]

/-- C7 witness: the theorem applied to the default pattern
`proto/**/*.proto` over a concrete tree, and to a missing base
directory. -/
theorem recursive_pattern_semantics_witness :
    resolveRecursivePattern recDemoFS recDemoPattern [] =
      .ok ((walkFrom recDemoFS ([] ++ segsOf (trimSuffixList (recDemoPattern.take 6) ['/']))).filter
        (fun p => matchB (trimPrefixList (recDemoPattern.drop (6 + 2)) ['/'])
          (baseNameSegs p))) ∧
    resolveRecursivePattern recDemoFS ("missing/**/*.proto".data) [] = .ok [] :=
  ⟨(recursive_pattern_semantics recDemoFS [] recDemoPattern 6 rfl).2 rfl,
   (recursive_pattern_semantics recDemoFS [] ("missing/**/*.proto".data) 8 rfl).1 rfl⟩

/-- One step of the `ResolveProtoFiles` loop, factored through
`resolveOnePattern`. -/
theorem resolveLoop_cons (fs : FS) (root : List String) (p : List Char)
    (ps : List (List Char)) (acc : List (List String)) :
    resolveProtoFilesLoop fs root (p :: ps) acc =
      match resolveOnePattern fs root p with
      | .error e => .error e
      | .ok ms => resolveProtoFilesLoop fs root ps (acc ++ ms) := by
  conv_lhs => rw [resolveProtoFilesLoop]
  cases habs : isAbsPattern p with
  | true =>
    simp only [resolveOnePattern, habs, if_true]
  | false =>
    cases hrec : (indexOfSub p ['*', '*']).isSome with
    | true =>
      simp only [resolveOnePattern, habs, hrec, Bool.false_eq_true, if_false, if_true]
    | false =>
      simp only [resolveOnePattern, habs, hrec, Bool.false_eq_true, if_false]

/-- The `ResolveProtoFiles` loop appends per-pattern results onto its
accumulator: it computes the plain concatenation semantics. -/
theorem resolveLoop_eq_concat (fs : FS) (root : List String) :
    ∀ (pats : List (List Char)) (acc : List (List String)),
      resolveProtoFilesLoop fs root pats acc =
        match resolveAllConcat fs root pats with
        | .error e => .error e
        | .ok l => .ok (acc ++ l) := by
  intro pats
  induction pats with
  | nil => intro acc; simp [resolveProtoFilesLoop, resolveAllConcat]
  | cons p ps ih =>
    intro acc
    rw [resolveLoop_cons]
    unfold resolveAllConcat
    cases resolveOnePattern fs root p with
    | error e => rfl
    | ok ms =>
      show resolveProtoFilesLoop fs root ps (acc ++ ms) =
        match (match resolveAllConcat fs root ps with
               | .error e => .error e
               | .ok rest => .ok (ms ++ rest) :
                 Except Unit (List (List String))) with
        | .error e => .error e
        | .ok l => .ok (acc ++ l)
      rw [ih]
      cases resolveAllConcat fs root ps with
      | error e => rfl
      | ok l => simp

/-- C3 counterexample: on the spec's own example — patterns `*.proto` and
`**/*.proto` over a tree with `a.proto` and `sub/b.proto` — the resolved
list contains `a.proto` twice, so a file matched by several patterns does
not appear exactly once. -/
theorem glob_union_dedup_counterexample :
    resolveProtoFiles globDemoFS globDemoConfig [] =
      .ok [["a.proto"], ["a.proto"], ["sub", "b.proto"]] ∧
    ([["a.proto"], ["a.proto"], ["sub", "b.proto"]] : List (List String)).count
      ["a.proto"] = 2 :=
  ⟨rfl, rfl⟩

/-- C3 (amended): `ResolveProtoFiles` returns the per-pattern match lists
concatenated in configuration order, with no deduplication — a file
matched by several patterns appears once per matching pattern. -/
theorem glob_union_keeps_duplicates (fs : FS) (cfg : ProjectConfig)
    (root : List String) :
    resolveProtoFiles fs cfg root = resolveAllConcat fs root cfg.protoFiles := by
  unfold resolveProtoFiles
  rw [resolveLoop_eq_concat]
  cases resolveAllConcat fs root cfg.protoFiles <;> simp

/-- C4 counterexample: with patterns listed against lexicographic order the
resolved list comes out in pattern order, not sorted by absolute path. -/
theorem sorted_output_counterexample :
    resolveProtoFiles orderDemoFS orderDemoConfig [] =
      .ok [["b.proto"], ["a.proto"]] ∧
    pathsSortedB [["b.proto"], ["a.proto"]] = false :=
  ⟨rfl, by decide⟩

/-- C4 (amended): the loop never reorders what it has already collected —
the accumulator is always a prefix of any successful result, so matches
appear in pattern order and no global sort is applied. -/
theorem resolve_appends_in_pattern_order (fs : FS) (root : List String)
    (pats : List (List Char)) (acc res : List (List String))
    (h : resolveProtoFilesLoop fs root pats acc = .ok res) :
    acc.isPrefixOf res = true := by
  induction pats generalizing acc with
  | nil =>
    unfold resolveProtoFilesLoop at h
    rw [Except.ok.injEq] at h
    subst h
    simp [List.isPrefixOf_iff_prefix]
  | cons p ps ih =>
    rw [resolveLoop_cons] at h
    cases hp : resolveOnePattern fs root p with
    | error e => rw [hp] at h; cases h
    | ok ms =>
      rw [hp] at h
      have hpre := ih (acc ++ ms) h
      rw [List.isPrefixOf_iff_prefix] at hpre ⊢
      exact List.IsPrefix.trans (List.prefix_append acc ms) hpre

/-- C4 witness: appending one pattern's matches keeps previously collected
matches as a prefix of the result. -/
theorem resolve_appends_in_pattern_order_witness :
    ([["z.proto"]] : List (List String)).isPrefixOf
      [["z.proto"], ["a.proto"]] = true :=
  resolve_appends_in_pattern_order orderDemoFS [] ["a.proto".data]
    [["z.proto"]] [["z.proto"], ["a.proto"]] rfl

/-- C8 counterexample: a configuration whose ignore list holds the
malformed glob `[` still resolves successfully — the overall call does not
fail, contradicting fail-closed behavior for "whether a source pattern or
an ignore pattern". -/
theorem failclosed_counterexample :
    findProtoFiles ignoreDemoFS ignoreDemoConfig [] = .ok [["protos", "a.proto"]] ∧
    ignoreDemoConfig.ignoredPatterns = ["[".data] ∧
    patternValid ("[".data) = false :=
  ⟨rfl, rfl, rfl⟩

/-- C8 (amended): malformed ignore patterns are skipped per pattern —
`shouldIgnoreFile` treats them as matching nothing and never fails — while
a malformed source pattern resolved by plain glob (any malformed
non-recursive relative pattern) makes the whole `ResolveProtoFiles` call
fail. -/
theorem malformed_pattern_handling :
    (∀ (pats : List (List Char)) (f : List String),
        shouldIgnoreFile pats f =
          pats.any (fun p => patternValid p && matchB p (baseNameSegs f))) ∧
    (∀ (fs : FS) (root : List String) (cfg : ProjectConfig) (pattern : List Char),
        pattern ∈ cfg.protoFiles → isAbsPattern pattern = false →
        indexOfSub pattern ['*', '*'] = none →
        patternValid (joinPath root pattern) = false →
        resolveProtoFiles fs cfg root = .error ()) := by
  constructor
  · intro pats f
    induction pats with
    | nil => rfl
    | cons p ps ih =>
      unfold shouldIgnoreFile
      simp only [List.any_cons]
      cases hv : patternValid p with
      | false => simp [filepathMatch, hv, ih]
      | true =>
        simp only [filepathMatch, hv, if_true]
        cases hm : matchB p (baseNameSegs f) with
        | false => simp [hm, ih]
        | true => simp [hm]
  · intro fs root cfg pattern hmem habs hrec hval
    unfold resolveProtoFiles
    have loopErr : ∀ (pats : List (List Char)) (acc : List (List String)),
        pattern ∈ pats → resolveProtoFilesLoop fs root pats acc = .error () := by
      intro pats
      induction pats with
      | nil => intro acc hmem2; cases hmem2
      | cons q qs ih =>
        intro acc hmem2
        rw [resolveLoop_cons]
        rcases List.mem_cons.mp hmem2 with heq | hmem3
        · subst heq
          unfold resolveOnePattern
          rw [habs, hrec]
          simp [globGo, hval]
        · cases hq : resolveOnePattern fs root q with
          | error e => cases e; rfl
          | ok ms => exact ih (acc ++ ms) hmem3
    exact loopErr cfg.protoFiles [] hmem

/-- C8 witness: the amended theorem applied to a concrete configuration
whose only source pattern is the malformed glob `[`. -/
theorem malformed_pattern_handling_witness :
    resolveProtoFiles orderDemoFS { protoFiles := ["[".data] } [] = .error () :=
  malformed_pattern_handling.2 orderDemoFS [] { protoFiles := ["[".data] }
    ("[".data) (List.mem_singleton.mpr rfl) rfl rfl rfl

/-- C1 counterexample: a resolved file outside every configured import
root is not a hard error — part_009's relativization (a total function
with no failure outcome) silently substitutes the file's basename, so the
list handed to the compiler names a different file. -/
theorem import_root_fallback_counterexample :
    relativizeProtoFiles [rootProtoImport] [outsideFile] =
      [{ abs := false, segs := ["x.proto"] }] ∧
    findRelUnderRoots [rootProtoImport] outsideFile = none ∧
    outsideFile.segs ≠ ["x.proto"] :=
  ⟨rfl, rfl, by decide⟩

/-- C1 (amended): a file expressible under no import root does not fail
compilation-input construction: part_009's `CompileProtos` replaces it by
its base filename, and part_008's `CompileProtos`, given no import paths,
silently drops every file; neither path produces an error naming the file
and the attempted roots. -/
theorem import_root_fallback (roots : List GoPath) (file : GoPath)
    (habs : file.abs = true) (hnone : findRelUnderRoots roots file = none) :
    relativizeProtoFiles roots [file] =
      [{ abs := false, segs := [goPathBase file] }] ∧
    ∀ files : List GoPath, relativeProtoFiles008 [] files = [] := by
  constructor
  · simp [relativizeProtoFiles, habs, hnone]
  · have aux : ∀ (files acc : List GoPath),
        files.foldl (fun acc f =>
          match findRel008 [] f with
          | some r => acc ++ [r]
          | none => acc) acc = acc := by
      intro files
      induction files with
      | nil => intro acc; rfl
      | cons f fsx ih => intro acc; exact ih acc
    intro files
    exact aux files []

/-- C1 witness: the amended theorem applied to a concrete file with no
configured import roots. -/
theorem import_root_fallback_witness :
    relativizeProtoFiles [] [{ abs := true, segs := ["a", "b.proto"] }] =
      [{ abs := false, segs := ["b.proto"] }] ∧
    relativeProtoFiles008 [] [{ abs := true, segs := ["a", "b.proto"] }] = [] := by
  have h := import_root_fallback [] { abs := true, segs := ["a", "b.proto"] } rfl rfl
  exact ⟨h.1, h.2 _⟩

end Protomcp
